import Mathlib

/-!
# Verification of the filter-and-aggregate pipeline of `src/app.py`

The dashboard app generates a tabular dataset `df` (one `Record` per row),
builds a boolean mask from the sidebar selections (a date range, a set of
categories and a set of regions), filters the dataset, and computes KPI
reducers and group-by aggregations over the filtered subset.

The embedding below follows the source line by line:
* `Record`, `Date`  — the row schema produced by `load_data` (app.py 132-144);
  the float column `Profit` is modelled with exact integers, which preserves
  every ordering/summation property at stake;
* `mask`, `df_filtered` — the boolean mask and filter (app.py 166-172);
* `total_sales`, `total_profit`, `avg_ticket`, `nb_trans` — the KPI row
  (app.py 188-191), with `seriesMean` returning `none` on an empty series
  (pandas yields NaN there, i.e. no numeric value);
* `map_data` (app.py 211), `top_products` (app.py 243),
  `monthStart`/`trend_data` (app.py 250-251) — the group-by aggregations,
  using `groupby_sum`, which mirrors pandas `groupby(key)[measure].sum()`
  with its ascending-key iteration order;
* `runDashboard` — the script's control flow from the filter through the
  aggregations, including the empty-subset guard (app.py 183-185) and the
  fact that the `Month` column is added to the filtered copy, never to the
  source frame (boolean-mask indexing `df[mask]` returns a copy).
-/

/-- A calendar date, as carried by the `Date` column (day precision:
the mask compares `.dt.date` values). -/
structure Date where
  year : Nat
  month : Nat
  day : Nat
deriving DecidableEq, Repr

/-- Lexicographic order on dates: the order pandas uses to compare
`datetime.date` values. -/
def Date.ble (a b : Date) : Bool :=
  decide (a.year < b.year) ||
    (decide (a.year = b.year) && (decide (a.month < b.month) ||
      (decide (a.month = b.month) && decide (a.day ≤ b.day))))

/-- One row of the dataframe built in `load_data` (app.py 132-141). -/
structure Record where
  date : Date
  category : String
  product : String
  region : String
  customerType : String
  sales : Int
  profit : Int
deriving DecidableEq, Repr

/-- The sidebar state feeding the mask (app.py 161-164): the date pair from
`st.date_input` and the two multiselect lists. -/
structure FilterSpec where
  startDate : Date
  endDate : Date
  selectedCat : List String
  selectedRegion : List String
deriving DecidableEq, Repr

/-- The boolean mask of app.py 166-171: conjunction of the two date bounds
and the two `isin` membership tests. -/
def mask (spec : FilterSpec) (r : Record) : Bool :=
  Date.ble spec.startDate r.date &&
  Date.ble r.date spec.endDate &&
  spec.selectedCat.contains r.category &&
  spec.selectedRegion.contains r.region

/-- The filter `df_filtered = df[mask]` (app.py 172): keep the rows where the mask is
true, in their original order. -/
def df_filtered (df : List Record) (spec : FilterSpec) : List Record :=
  df.filter (mask spec)

/-- Pandas `Series.sum` over an integer column: `0` on an empty series. -/
def seriesSum (l : List Int) : Int := l.sum

/-- Pandas `Series.count` / `len`: the number of records. -/
def seriesCount (l : List Int) : Nat := l.length

/-- Pandas `Series.mean`: sum divided by length; on an empty series pandas yields
NaN (no numeric value), modelled as `none`. -/
def seriesMean (l : List Int) : Option ℚ :=
  if l.length = 0 then none
  else some ((l.map (fun x => (x : ℚ))).sum / (l.length : ℚ))

/-- The KPI `df_filtered['Sales'].sum()` (app.py 188). -/
def total_sales (sub : List Record) : Int := seriesSum (sub.map (·.sales))

/-- The KPI `df_filtered['Profit'].sum()` (app.py 189). -/
def total_profit (sub : List Record) : Int := seriesSum (sub.map (·.profit))

/-- The KPI `df_filtered['Sales'].mean()` (app.py 190). -/
def avg_ticket (sub : List Record) : Option ℚ := seriesMean (sub.map (·.sales))

/-- The KPI `len(df_filtered)` (app.py 191). -/
def nb_trans (sub : List Record) : Nat := sub.length

/-- Insert `a` into `l` before the first element `b` with `le a b`:
the insertion step of a stable sort. -/
def insertSorted (le : α → α → Bool) (a : α) : List α → List α
  | [] => [a]
  | b :: t => if le a b then a :: b :: t else b :: insertSorted le a t

/-- Stable insertion sort by the Bool comparator `le`: the deterministic
ascending sort realised by pandas `sort_values` / sorted group-by keys. -/
def sortBy (le : α → α → Bool) : List α → List α
  | [] => []
  | a :: t => insertSorted le a (sortBy le t)

/-- The distinct key values of a group-by, in the ascending order pandas
`groupby(key, sort=True)` iterates them. -/
def sortedKeys [DecidableEq κ] (kble : κ → κ → Bool) (l : List κ) : List κ :=
  sortBy kble l.dedup

/-- Pandas `df.groupby(key)[measure].sum()`: one `(key, sum)` pair per distinct key
value, keys ascending, each sum taken over the rows carrying that key. -/
def groupby_sum [DecidableEq κ] (kble : κ → κ → Bool)
    (df : List Record) (key : Record → κ) (measure : Record → Int) :
    List (κ × Int) :=
  (sortedKeys kble (df.map key)).map
    (fun k => (k, ((df.filter (fun r => key r == k)).map measure).sum))

/-- Lexicographic order on character lists: compare the first differing
character by code point. -/
def charListBle : List Char → List Char → Bool
  | [], _ => true
  | _ :: _, [] => false
  | a :: as, b :: bs => if a = b then charListBle as bs else decide (a < b)

/-- Lexicographic order on strings as a Bool, for sorting group keys: the
code-point order Python and pandas use to compare strings. -/
def strBle (a b : String) : Bool := charListBle a.data b.data

/-- The aggregation `df_filtered.groupby('Region')['Sales'].sum()` (app.py 211). -/
def map_data (sub : List Record) : List (String × Int) :=
  groupby_sum strBle sub (·.region) (·.sales)

/-- The order `sort_values(ascending=True)` realises on the group rows of
app.py 243: ascending by summed profit; rows with equal sums keep the
ascending-key order the group-by produced them in. -/
def profitOrder (a b : String × Int) : Bool :=
  decide (a.2 < b.2) || (decide (a.2 = b.2) && strBle a.1 b.1)

/-- The aggregation `df_filtered.groupby('Product')['Profit'].sum().sort_values(ascending=True).tail(10)`
(app.py 243): group sums sorted ascending by profit, last 10 kept. -/
def top_products (sub : List Record) : List (String × Int) :=
  let s := sortBy profitOrder (groupby_sum strBle sub (·.product) (·.profit))
  s.drop (s.length - 10)

/-- The bucketing `ts.to_period('M').start_time` (app.py 250): the first instant of the
calendar month containing the timestamp. -/
def monthStart (d : Date) : Date := ⟨d.year, d.month, 1⟩

/-- The aggregation `df_filtered.groupby('Month')['Sales'].sum()` (app.py 251), where the
`Month` column is `monthStart` of the `Date` column (app.py 250). -/
def trend_data (sub : List Record) : List (Date × Int) :=
  groupby_sum Date.ble sub (fun r => monthStart r.date) (·.sales)

/-- The KPI values rendered in row 1 of the dashboard (app.py 188-202).
`avg_ticket` appears unwrapped: the script only reaches this row past the
emptiness guard, where the mean exists. -/
structure KPIs where
  total_sales : Int
  total_profit : Int
  avg_ticket : ℚ
  nb_trans : Nat
deriving DecidableEq, Repr

/-- Everything the dashboard derives from the filtered subset. -/
structure DashOutputs where
  kpis : KPIs
  map_data : List (String × Int)
  top_products : List (String × Int)
  trend_data : List (Date × Int)
deriving DecidableEq, Repr

/-- The script body from the mask (app.py 166) to the trend chart
(app.py 251). The first component of the result is the source frame `df`
as it stands after the run: `df[mask]` copies, and the `Month` column
assignment of app.py 250 lands on the copy `df_filtered`, so the source
frame passes through unchanged. When `df_filtered.empty`, the script
renders an error and calls `st.stop()` before any KPI (app.py 183-185),
modelled by `Except.error`. -/
def runDashboard (df : List Record) (spec : FilterSpec) :
    List Record × Except String DashOutputs :=
  let sub := df_filtered df spec
  if sub = [] then
    (df, Except.error "No data available based on current filters.")
  else
    (df, Except.ok
      { kpis := { total_sales := total_sales sub
                  total_profit := total_profit sub
                  avg_ticket := (avg_ticket sub).getD 0
                  nb_trans := nb_trans sub }
        map_data := map_data sub
        top_products := top_products sub
        trend_data := trend_data sub })

/-! ## Order lemmas for `Date.ble` -/

theorem Date.ble_iff {a b : Date} :
    Date.ble a b = true ↔
      (a.year < b.year ∨ (a.year = b.year ∧
        (a.month < b.month ∨ (a.month = b.month ∧ a.day ≤ b.day)))) := by
  simp [Date.ble]

theorem Date.ble_trans {a b c : Date} (h1 : Date.ble a b = true)
    (h2 : Date.ble b c = true) : Date.ble a c = true := by
  rw [Date.ble_iff] at *
  omega

theorem Date.ble_total (a b : Date) : Date.ble a b = true ∨ Date.ble b a = true := by
  rw [Date.ble_iff, Date.ble_iff]
  omega

theorem Date.ble_refl (a : Date) : Date.ble a a = true := by
  rw [Date.ble_iff]
  omega

/-! ## The mask and the filter -/

theorem mask_iff {spec : FilterSpec} {r : Record} :
    mask spec r = true ↔
      (Date.ble spec.startDate r.date = true ∧ Date.ble r.date spec.endDate = true ∧
        r.category ∈ spec.selectedCat ∧ r.region ∈ spec.selectedRegion) := by
  simp [mask, List.contains_iff_exists_mem_beq, beq_iff_eq, and_assoc]

theorem mem_df_filtered {df : List Record} {spec : FilterSpec} {r : Record} :
    r ∈ df_filtered df spec ↔
      (r ∈ df ∧ Date.ble spec.startDate r.date = true ∧ Date.ble r.date spec.endDate = true ∧
        r.category ∈ spec.selectedCat ∧ r.region ∈ spec.selectedRegion) := by
  rw [df_filtered, List.mem_filter, mask_iff]

/-! ## Sorting lemmas -/

theorem mem_insertSorted {le : α → α → Bool} {a x : α} {l : List α} :
    x ∈ insertSorted le a l ↔ x = a ∨ x ∈ l := by
  induction l with
  | nil => simp [insertSorted]
  | cons b t ih =>
    by_cases h : le a b = true
    · simp [insertSorted, h]
    · simp only [insertSorted, if_neg h, List.mem_cons, ih]
      tauto

theorem perm_insertSorted (le : α → α → Bool) (a : α) (l : List α) :
    List.Perm (insertSorted le a l) (a :: l) := by
  induction l with
  | nil => simp [insertSorted]
  | cons b t ih =>
    by_cases h : le a b = true
    · rw [insertSorted, if_pos h]
    · rw [insertSorted, if_neg h]
      exact (ih.cons b).trans (List.Perm.swap a b t)

theorem perm_sortBy (le : α → α → Bool) (l : List α) :
    List.Perm (sortBy le l) l := by
  induction l with
  | nil => exact List.Perm.refl _
  | cons a t ih => exact (perm_insertSorted le a (sortBy le t)).trans (ih.cons a)

theorem pairwise_insertSorted {le : α → α → Bool}
    (total : ∀ a b, le a b = true ∨ le b a = true)
    (trans : ∀ a b c, le a b = true → le b c = true → le a c = true) (a : α)
    {l : List α} (hl : l.Pairwise (fun x y => le x y = true)) :
    (insertSorted le a l).Pairwise (fun x y => le x y = true) := by
  induction l with
  | nil => simp [insertSorted]
  | cons b t ih =>
    rcases List.pairwise_cons.mp hl with ⟨hb, ht⟩
    by_cases h : le a b = true
    · rw [insertSorted, if_pos h]
      refine List.pairwise_cons.mpr ⟨fun x hx => ?_, hl⟩
      rcases List.mem_cons.mp hx with rfl | hx
      · exact h
      · exact trans a b x h (hb x hx)
    · rw [insertSorted, if_neg h]
      refine List.pairwise_cons.mpr ⟨fun x hx => ?_, ih ht⟩
      rcases mem_insertSorted.mp hx with heq | hx
      · simpa [heq] using (total a b).resolve_left h
      · exact hb x hx

theorem pairwise_sortBy {le : α → α → Bool}
    (total : ∀ a b, le a b = true ∨ le b a = true)
    (trans : ∀ a b c, le a b = true → le b c = true → le a c = true)
    (l : List α) :
    (sortBy le l).Pairwise (fun x y => le x y = true) := by
  induction l with
  | nil => exact List.Pairwise.nil
  | cons a t ih => exact pairwise_insertSorted total trans a ih

/-! ## Group-by lemmas -/

theorem sum_map_filter_add {p : α → Bool} (f : α → Int) (l : List α) :
    ((l.filter p).map f).sum + ((l.filter (fun a => !(p a))).map f).sum
      = (l.map f).sum := by
  induction l with
  | nil => simp
  | cons a t ih =>
    by_cases hp : p a = true <;> simp [List.filter_cons, hp] <;> omega

theorem filter_key_of_ne {key : α → κ} [DecidableEq κ] {k k' : κ} (hne : k' ≠ k)
    (l : List α) :
    (l.filter (fun a => !(key a == k))).filter (fun a => key a == k')
      = l.filter (fun a => key a == k') := by
  rw [List.filter_filter]
  apply List.filter_congr
  intro a _
  by_cases h : key a = k'
  · simp [h, hne]
  · simp [h]

theorem groups_sum_eq [DecidableEq κ] (key : α → κ) (f : α → Int) :
    ∀ keys : List κ, keys.Nodup → ∀ l : List α, (∀ a ∈ l, key a ∈ keys) →
      (keys.map (fun k => ((l.filter (fun a => key a == k)).map f).sum)).sum
        = (l.map f).sum := by
  intro keys
  induction keys with
  | nil =>
    intro _ l hcov
    have hl : l = [] := List.eq_nil_iff_forall_not_mem.mpr
      (fun a ha => by simpa using hcov a ha)
    simp [hl]
  | cons k rest ih =>
    intro hnd l hcov
    rcases List.nodup_cons.mp hnd with ⟨hk, hrest⟩
    have hcov₂ : ∀ a ∈ l.filter (fun a => !(key a == k)), key a ∈ rest := by
      intro a ha
      rcases List.mem_filter.mp ha with ⟨hal, hkey⟩
      rcases List.mem_cons.mp (hcov a hal) with h | h
      · exact absurd h (by simpa using hkey)
      · exact h
    have hmap : rest.map (fun k' => ((l.filter (fun a => key a == k')).map f).sum)
        = rest.map (fun k' =>
            (((l.filter (fun a => !(key a == k))).filter
              (fun a => key a == k')).map f).sum) := by
      apply List.map_congr_left
      intro k' hk'
      have hne : k' ≠ k := by
        rintro rfl
        exact hk hk'
      rw [filter_key_of_ne hne l]
    rw [List.map_cons, List.sum_cons, hmap,
      ih hrest (l.filter (fun a => !(key a == k))) hcov₂]
    exact sum_map_filter_add f l

theorem mem_sortedKeys [DecidableEq κ] {kble : κ → κ → Bool} {l : List κ} {a : κ} :
    a ∈ sortedKeys kble l ↔ a ∈ l := by
  rw [sortedKeys, (perm_sortBy kble l.dedup).mem_iff]
  exact List.mem_dedup

theorem nodup_sortedKeys [DecidableEq κ] (kble : κ → κ → Bool) (l : List κ) :
    (sortedKeys kble l).Nodup :=
  (perm_sortBy kble l.dedup).nodup_iff.mpr (List.nodup_dedup l)

theorem groupby_sum_total [DecidableEq κ] (kble : κ → κ → Bool)
    (df : List Record) (key : Record → κ) (measure : Record → Int) :
    ((groupby_sum kble df key measure).map Prod.snd).sum = (df.map measure).sum := by
  rw [groupby_sum, List.map_map]
  have hc : (Prod.snd ∘ fun k => (k, ((df.filter (fun r => key r == k)).map measure).sum))
      = fun k => ((df.filter (fun r => key r == k)).map measure).sum := rfl
  rw [hc]
  apply groups_sum_eq key measure _ (nodup_sortedKeys _ _) df
  intro a ha
  exact mem_sortedKeys.mpr (List.mem_map_of_mem _ ha)

/-! ## Concrete sample data (drawn from the value pools of `load_data`) -/

/-- A sample January row. -/
def exRec : Record :=
  { date := ⟨2024, 1, 15⟩, category := "Electronics", product := "Desk Lamp",
    region := "USA", customerType := "Corporate", sales := 100, profit := 20 }

/-- A sample February row with another product and region. -/
def exRec2 : Record :=
  { date := ⟨2024, 2, 3⟩, category := "Furniture", product := "USB Hub",
    region := "France", customerType := "Consumer", sales := 300, profit := 200 }

/-- A spec selecting the full year and every known category and region. -/
def exSpecAll : FilterSpec :=
  { startDate := ⟨2024, 1, 1⟩, endDate := ⟨2024, 12, 31⟩,
    selectedCat := ["Electronics", "Furniture", "Office Supplies", "Technology"],
    selectedRegion := ["USA", "France", "Germany", "United Kingdom", "Canada",
      "Spain", "Italy"] }

/-- A spec whose category multiselect is empty. -/
def exSpecEmptyCat : FilterSpec :=
  { startDate := ⟨2024, 1, 1⟩, endDate := ⟨2024, 12, 31⟩,
    selectedCat := [], selectedRegion := ["USA", "France"] }

/-- A spec whose date range is inverted: start strictly after end. -/
def exSpecBadRange : FilterSpec :=
  { startDate := ⟨2024, 6, 1⟩, endDate := ⟨2024, 1, 1⟩,
    selectedCat := ["Electronics", "Furniture"],
    selectedRegion := ["USA", "France"] }

/-! ## Auxiliary filter facts -/

theorem count_df_filtered (df : List Record) (spec : FilterSpec) (r : Record) :
    (df_filtered df spec).count r
      = if mask spec r = true then df.count r else 0 := by
  by_cases h : mask spec r = true
  · rw [if_pos h, df_filtered, List.count_filter h]
  · rw [if_neg h, List.count_eq_zero]
    intro hm
    exact h (List.of_mem_filter hm)

/-! ## Claim theorems -/

/-- C1: `df_filtered` returns exactly the records satisfying all four mask
predicates in conjunction — timestamp within `[start, end]` inclusive on both
ends, category in the selected set, region in the selected set. The result is
a sublist of the input (subset preserving relative order), each record is
kept with its full multiplicity exactly when the mask holds, and the
operation always yields a defined (possibly empty) list. -/
theorem filter_is_exact_conjunction (df : List Record) (spec : FilterSpec) :
    List.Sublist (df_filtered df spec) df ∧
    (∀ r : Record, r ∈ df_filtered df spec ↔
      (r ∈ df ∧ Date.ble spec.startDate r.date = true ∧
        Date.ble r.date spec.endDate = true ∧
        r.category ∈ spec.selectedCat ∧ r.region ∈ spec.selectedRegion)) ∧
    (∀ r : Record, (df_filtered df spec).count r
      = if mask spec r = true then df.count r else 0) :=
  ⟨List.filter_sublist df, fun _ => mem_df_filtered, count_df_filtered df spec⟩

/-- C7: the filter is idempotent — filtering its own output with the same
spec returns the same result. -/
theorem filter_idempotent (df : List Record) (spec : FilterSpec) :
    df_filtered (df_filtered df spec) spec = df_filtered df spec := by
  rw [df_filtered, df_filtered, List.filter_filter]
  exact List.filter_congr (fun r _ => by cases h : mask spec r <;> simp [h])

/-- C5: if either categorical multiselect is empty, no record passes its
`isin` test, so the filter returns the empty result. -/
theorem empty_selection_empty_result (df : List Record) (spec : FilterSpec)
    (h : spec.selectedCat = [] ∨ spec.selectedRegion = []) :
    df_filtered df spec = [] := by
  rw [df_filtered, List.filter_eq_nil_iff]
  intro r _ hm
  rcases mask_iff.mp hm with ⟨_, _, hc, hr⟩
  rcases h with h | h
  · rw [h] at hc
    exact absurd hc (List.not_mem_nil _)
  · rw [h] at hr
    exact absurd hr (List.not_mem_nil _)

/-- Witness for C5: a concrete dataset and a spec with an empty category
selection filter down to the empty list. -/
theorem empty_selection_empty_result_witness :
    (exSpecEmptyCat.selectedCat = [] ∨ exSpecEmptyCat.selectedRegion = []) ∧
      df_filtered [exRec, exRec2] exSpecEmptyCat = [] :=
  ⟨Or.inl rfl, empty_selection_empty_result [exRec, exRec2] exSpecEmptyCat (Or.inl rfl)⟩

/-- C3 counterexample: with `start > end` the mask raises nothing — the
filter completes normally and returns the empty list, and the script then
renders its generic no-data message; there is no `InvalidRangeError` path in
the code. -/
theorem inverted_range_no_error :
    Date.ble exSpecBadRange.startDate exSpecBadRange.endDate = false ∧
    df_filtered [exRec, exRec2] exSpecBadRange = [] ∧
    (runDashboard [exRec, exRec2] exSpecBadRange).2
      = Except.error "No data available based on current filters." :=
  ⟨rfl, rfl, rfl⟩

/-- C3 (amended): for a date range with `start > end` the filter raises no
error; the two date bounds are jointly unsatisfiable, so it returns the
empty result. -/
theorem inverted_range_empty_result (df : List Record) (spec : FilterSpec)
    (h : Date.ble spec.startDate spec.endDate = false) :
    df_filtered df spec = [] := by
  rw [df_filtered, List.filter_eq_nil_iff]
  intro r _ hm
  rcases mask_iff.mp hm with ⟨h1, h2, _, _⟩
  rw [Date.ble_trans h1 h2] at h
  exact Bool.noConfusion h

/-- Witness for the amended C3 at a concrete inverted range. -/
theorem inverted_range_empty_result_witness :
    Date.ble exSpecBadRange.startDate exSpecBadRange.endDate = false ∧
      df_filtered [exRec, exRec2] exSpecBadRange = [] :=
  ⟨rfl, inverted_range_empty_result [exRec, exRec2] exSpecBadRange rfl⟩

/-- C6: summing the per-group sums of a group-by reproduces the sum of the
measure over the whole ungrouped filtered subset, for both Sales group-bys
of the dashboard (per region and per month). -/
theorem aggregation_total_consistency (df : List Record) (spec : FilterSpec) :
    ((map_data (df_filtered df spec)).map Prod.snd).sum
        = total_sales (df_filtered df spec) ∧
    ((trend_data (df_filtered df spec)).map Prod.snd).sum
        = total_sales (df_filtered df spec) := by
  constructor
  · rw [map_data, total_sales, seriesSum]
    exact groupby_sum_total strBle (df_filtered df spec) (·.region) (·.sales)
  · rw [trend_data, total_sales, seriesSum]
    exact groupby_sum_total Date.ble (df_filtered df spec)
      (fun r => monthStart r.date) (·.sales)

/-! ## Order facts for `charListBle`, `strBle` and `profitOrder` -/

theorem charListBle_total : ∀ a b : List Char,
    charListBle a b = true ∨ charListBle b a = true
  | [], _ => Or.inl rfl
  | _ :: _, [] => Or.inr rfl
  | a :: as, b :: bs => by
    by_cases h : a = b
    · subst h
      rcases charListBle_total as bs with h | h
      · exact Or.inl (by simpa [charListBle])
      · exact Or.inr (by simpa [charListBle])
    · rcases lt_trichotomy a b with hlt | heq | hgt
      · exact Or.inl (by simp [charListBle, h, hlt])
      · exact absurd heq h
      · exact Or.inr (by simp [charListBle, Ne.symm h, hgt])

theorem charListBle_trans : ∀ a b c : List Char, charListBle a b = true →
    charListBle b c = true → charListBle a c = true
  | [], _, _, _, _ => rfl
  | _ :: _, [], _, h1, _ => by simp [charListBle] at h1
  | _ :: _, _ :: _, [], _, h2 => by simp [charListBle] at h2
  | a :: as, b :: bs, c :: cs, h1, h2 => by
    by_cases hab : a = b <;> by_cases hbc : b = c
    · subst hab
      subst hbc
      simp only [charListBle, if_pos rfl] at h1 h2 ⊢
      exact charListBle_trans as bs cs h1 h2
    · subst hab
      simp only [charListBle, if_neg hbc] at h2 ⊢
      exact h2
    · subst hbc
      simp only [charListBle, if_neg hab] at h1 ⊢
      exact h1
    · simp only [charListBle, if_neg hab] at h1
      simp only [charListBle, if_neg hbc] at h2
      have hac : a < c := lt_trans (of_decide_eq_true h1) (of_decide_eq_true h2)
      simp only [charListBle, if_neg (ne_of_lt hac)]
      exact decide_eq_true hac

theorem charListBle_antisymm : ∀ a b : List Char, charListBle a b = true →
    charListBle b a = true → a = b
  | [], [], _, _ => rfl
  | [], _ :: _, _, h2 => by simp [charListBle] at h2
  | _ :: _, [], h1, _ => by simp [charListBle] at h1
  | a :: as, b :: bs, h1, h2 => by
    by_cases hab : a = b
    · subst hab
      simp only [charListBle, if_pos rfl] at h1 h2
      rw [charListBle_antisymm as bs h1 h2]
    · simp only [charListBle, if_neg hab] at h1
      simp only [charListBle, if_neg (Ne.symm hab)] at h2
      exact absurd (of_decide_eq_true h1) (lt_asymm (of_decide_eq_true h2))

theorem strBle_total (a b : String) : strBle a b = true ∨ strBle b a = true :=
  charListBle_total a.data b.data

theorem strBle_trans {a b c : String} (h1 : strBle a b = true)
    (h2 : strBle b c = true) : strBle a c = true :=
  charListBle_trans a.data b.data c.data h1 h2

theorem strBle_antisymm {a b : String} (h1 : strBle a b = true)
    (h2 : strBle b a = true) : a = b := by
  cases a
  cases b
  exact congrArg String.mk (charListBle_antisymm _ _ h1 h2)

theorem profitOrder_iff {a b : String × Int} :
    profitOrder a b = true ↔ (a.2 < b.2 ∨ (a.2 = b.2 ∧ strBle a.1 b.1 = true)) := by
  simp [profitOrder]

theorem profitOrder_total (a b : String × Int) :
    profitOrder a b = true ∨ profitOrder b a = true := by
  rw [profitOrder_iff, profitOrder_iff]
  rcases lt_trichotomy a.2 b.2 with h | h | h
  · exact Or.inl (Or.inl h)
  · rcases strBle_total a.1 b.1 with hs | hs
    · exact Or.inl (Or.inr ⟨h, hs⟩)
    · exact Or.inr (Or.inr ⟨h.symm, hs⟩)
  · exact Or.inr (Or.inl h)

theorem profitOrder_trans (a b c : String × Int)
    (h1 : profitOrder a b = true) (h2 : profitOrder b c = true) :
    profitOrder a c = true := by
  rw [profitOrder_iff] at h1 h2 ⊢
  rcases h1 with h1 | ⟨h1, hs1⟩ <;> rcases h2 with h2 | ⟨h2, hs2⟩
  · exact Or.inl (h1.trans h2)
  · exact Or.inl (h2 ▸ h1)
  · exact Or.inl (h1 ▸ h2)
  · exact Or.inr ⟨h1.trans h2, strBle_trans hs1 hs2⟩

theorem profitOrder_antisymm {a b : String × Int}
    (h1 : profitOrder a b = true) (h2 : profitOrder b a = true) : a = b := by
  rw [profitOrder_iff] at h1 h2
  rcases h1 with h1 | ⟨h1, hs1⟩ <;> rcases h2 with h2 | ⟨h2, hs2⟩
  · exact absurd (h1.trans h2) (lt_irrefl _)
  · exact absurd h1 (h2 ▸ lt_irrefl _)
  · exact absurd h2 (h1 ▸ lt_irrefl _)
  · exact Prod.ext (strBle_antisymm hs1 hs2) h1

/-- C2 (amended): the top-10-products aggregation is sorted ascending by
summed profit (the 10 largest sums form the tail of the ascending sort);
exact profit ties are ordered by product key ascending; the output has at
most 10 rows; and the order is uniquely determined — any `profitOrder`-sorted
arrangement of the group rows yields the same tail — so identical inputs
give identical output order on every run. -/
theorem top_products_ascending_deterministic (sub : List Record) :
    (top_products sub).Pairwise (fun a b => profitOrder a b = true) ∧
    (top_products sub).length ≤ 10 ∧
    ∀ l : List (String × Int),
      List.Perm l (groupby_sum strBle sub (·.product) (·.profit)) →
      l.Pairwise (fun a b => profitOrder a b = true) →
      top_products sub = l.drop (l.length - 10) := by
  refine ⟨?_, ?_, ?_⟩
  · exact List.Pairwise.sublist (List.drop_sublist _ _)
      (pairwise_sortBy profitOrder_total profitOrder_trans _)
  · rw [top_products]
    simp only [List.length_drop]
    omega
  · intro l hperm hpl
    haveI : IsAntisymm (String × Int) (fun a b => profitOrder a b = true) :=
      ⟨fun _ _ h1 h2 => profitOrder_antisymm h1 h2⟩
    have hsorted : List.Sorted (fun a b => profitOrder a b = true)
        (sortBy profitOrder (groupby_sum strBle sub (·.product) (·.profit))) :=
      pairwise_sortBy profitOrder_total profitOrder_trans _
    have heq : sortBy profitOrder (groupby_sum strBle sub (·.product) (·.profit)) = l :=
      List.eq_of_perm_of_sorted
        ((perm_sortBy profitOrder _).trans hperm.symm) hsorted hpl
    rw [top_products, heq]

/-- Witness for C2: the amended theorem applied to a concrete two-product
dataset and the concrete ascending arrangement of its group rows. -/
theorem top_products_ascending_deterministic_witness :
    top_products [exRec, exRec2]
      = ([("Desk Lamp", 20), ("USB Hub", 200)] : List (String × Int)).drop
          (([("Desk Lamp", 20), ("USB Hub", 200)] : List (String × Int)).length - 10) :=
  (top_products_ascending_deterministic [exRec, exRec2]).2.2
    [("Desk Lamp", 20), ("USB Hub", 200)] (by decide) (by decide)

/-- C2 counterexample: on a concrete two-product dataset the code returns
the group rows in ascending profit order — the first row carries the smaller
profit — so the claim's "sorted descending by the target measure" is false
of the code. -/
theorem top_products_not_descending :
    top_products [exRec, exRec2] = [("Desk Lamp", 20), ("USB Hub", 200)] ∧
    ¬ (top_products [exRec, exRec2]).Pairwise (fun a b => b.2 ≤ a.2) := by
  constructor
  · rfl
  · decide

/-- C8: the month bucket of a timestamp is the first instant of the calendar
month containing it — same year, same month, day 1, a lower bound of every
day of that month — and the monthly revenue trend groups the filtered subset
by exactly that bucket key. -/
theorem month_bucket_first_instant (d : Date) (hd : 1 ≤ d.day) :
    (monthStart d).year = d.year ∧ (monthStart d).month = d.month ∧
    (monthStart d).day = 1 ∧ Date.ble (monthStart d) d = true ∧
    (∀ d' : Date, d'.year = d.year → d'.month = d.month → 1 ≤ d'.day →
      Date.ble (monthStart d) d' = true) ∧
    (∀ sub : List Record, trend_data sub
      = groupby_sum Date.ble sub (fun r => monthStart r.date) (·.sales)) := by
  refine ⟨rfl, rfl, rfl, ?_, ?_, fun _ => rfl⟩
  · obtain ⟨y, m, dd⟩ := d
    rw [Date.ble_iff]
    dsimp only [monthStart] at hd ⊢
    omega
  · intro d' h1 h2 h3
    obtain ⟨y, m, dd⟩ := d
    obtain ⟨y', m', dd'⟩ := d'
    rw [Date.ble_iff]
    dsimp only [monthStart] at h1 h2 h3 ⊢
    omega

/-- Witness for C8 at a concrete date: the bucket of 17 May 2024 is a lower
bound of that date and of the first of its month. -/
theorem month_bucket_first_instant_witness :
    1 ≤ (Date.mk 2024 5 17).day ∧
    Date.ble (monthStart ⟨2024, 5, 17⟩) ⟨2024, 5, 17⟩ = true ∧
    Date.ble (monthStart ⟨2024, 5, 17⟩) ⟨2024, 5, 1⟩ = true :=
  ⟨by decide,
    (month_bucket_first_instant ⟨2024, 5, 17⟩ (by decide)).2.2.2.1,
    (month_bucket_first_instant ⟨2024, 5, 17⟩ (by decide)).2.2.2.2.1
      ⟨2024, 5, 1⟩ rfl rfl (by decide)⟩

/-- C9: the pipeline — filter, guard, KPIs, group-bys, and the `Month`
column derivation, which lands on the filtered copy — leaves the source
dataset untouched: the source frame that comes out of a run is the one that
went in, records, values and order alike. -/
theorem source_dataset_unchanged (df : List Record) (spec : FilterSpec) :
    (runDashboard df spec).1 = df := by
  by_cases h : df_filtered df spec = [] <;> simp [runDashboard, h]

/-! ## Dashboard control-flow lemmas -/

theorem runDashboard_ok {df : List Record} {spec : FilterSpec} {out : DashOutputs}
    (h : (runDashboard df spec).2 = Except.ok out) :
    df_filtered df spec ≠ [] ∧
      out.kpis.avg_ticket = (avg_ticket (df_filtered df spec)).getD 0 := by
  by_cases he : df_filtered df spec = []
  · simp [runDashboard, he] at h
  · refine ⟨he, ?_⟩
    simp only [runDashboard, if_neg he] at h
    injection h with h
    rw [← h]

theorem runDashboard_error {df : List Record} {spec : FilterSpec}
    (he : df_filtered df spec = []) :
    (runDashboard df spec).2
      = Except.error "No data available based on current filters." := by
  simp [runDashboard, he]

theorem avg_ticket_some_of_ne {sub : List Record} (h : sub ≠ []) :
    ∃ q : ℚ, avg_ticket sub = some q := by
  rw [avg_ticket, seriesMean, if_neg (by simpa using h)]
  exact ⟨_, rfl⟩

/-- C4: the mean reducer over zero records yields no numeric value (pandas
NaN, modelled `none` — in particular never a silent `some 0`), sum and count
over zero records are `0`, and the dashboard computes the average-order-value
mean only behind the caller's emptiness guard: whenever KPIs are produced the
filtered subset is non-empty and the reported average is exactly its mean. -/
theorem mean_empty_guarded (df : List Record) (spec : FilterSpec) :
    seriesMean [] = none ∧ seriesSum [] = 0 ∧ seriesCount [] = 0 ∧
    (∀ out : DashOutputs, (runDashboard df spec).2 = Except.ok out →
      df_filtered df spec ≠ [] ∧
      avg_ticket (df_filtered df spec) = some out.kpis.avg_ticket) := by
  refine ⟨rfl, rfl, rfl, ?_⟩
  intro out h
  rcases runDashboard_ok h with ⟨hne, hq⟩
  rcases avg_ticket_some_of_ne hne with ⟨q, hq2⟩
  refine ⟨hne, ?_⟩
  rw [hq2, hq, hq2]
  rfl

/-- C10: when the filtered subset is empty the script stops with its no-data
error before any KPI is computed; whenever KPIs are produced the filtered
subset is non-empty, so the mean is only ever taken of a non-empty series
and the mean-of-empty branch of `seriesMean` is unreachable. -/
theorem empty_subset_stops_before_kpis (df : List Record) (spec : FilterSpec) :
    (df_filtered df spec = [] →
      (runDashboard df spec).2
        = Except.error "No data available based on current filters.") ∧
    (∀ out : DashOutputs, (runDashboard df spec).2 = Except.ok out →
      df_filtered df spec ≠ [] ∧
      (avg_ticket (df_filtered df spec)).isSome = true) := by
  constructor
  · exact runDashboard_error
  · intro out h
    have hne := (runDashboard_ok h).1
    rcases avg_ticket_some_of_ne hne with ⟨q, hq⟩
    exact ⟨hne, by rw [hq]; rfl⟩

/-- The dashboard output computed at `[exRec]` under the all-inclusive spec,
with the average-order-value field spelled as the exact arithmetic expression
the pipeline builds (the mean of the single sales value 100). -/
def exOut : DashOutputs :=
  { kpis := { total_sales := 100, total_profit := 20,
              avg_ticket := (((100 : Int) : ℚ) + 0) / ((1 : ℕ) : ℚ),
              nb_trans := 1 }
    map_data := [("USA", 100)]
    top_products := [("Desk Lamp", 20)]
    trend_data := [(⟨2024, 1, 1⟩, 100)] }

/-- Witness for C4: on a concrete one-row dataset the dashboard produces
KPIs, the filtered subset is non-empty, and the reported average order value
is exactly the subset's mean. -/
theorem mean_empty_guarded_witness :
    df_filtered [exRec] exSpecAll ≠ [] ∧
      avg_ticket (df_filtered [exRec] exSpecAll) = some exOut.kpis.avg_ticket :=
  (mean_empty_guarded [exRec] exSpecAll).2.2.2 exOut rfl

/-- Witness for C10: with the empty category selection the script stops with
the no-data error; with the all-inclusive spec it produces KPIs over a
non-empty subset with a defined mean. -/
theorem empty_subset_stops_before_kpis_witness :
    (runDashboard [exRec] exSpecEmptyCat).2
        = Except.error "No data available based on current filters." ∧
    (df_filtered [exRec] exSpecAll ≠ [] ∧
      (avg_ticket (df_filtered [exRec] exSpecAll)).isSome = true) :=
  ⟨(empty_subset_stops_before_kpis [exRec] exSpecEmptyCat).1 rfl,
    (empty_subset_stops_before_kpis [exRec] exSpecAll).2 exOut rfl⟩
